import Mathlib

/-!
Verification of the codenav location-resolution core of the repository:
the `gatherLocations` traversal (`NewGetDefinitions` / `NewGetReferences` /
`NewGetImplementations` / `NewGetPrototypes`), the `qualifiedMonikerSet`
collector and the `Cursor` bump operations from
`enterprise/internal/codeintel/codenav/types.go`.

Go machine integers are modelled as `Int` (no arithmetic here approaches
overflow), Go maps used only for membership / keyed update are modelled as
lists with explicit lookup and update functions, and fallible calls are
modelled with `Except`.  External collaborators (lsif store extraction,
symbol parsing, upload discovery, range translation) are abstract fields of
an `Env` record; repository functions that are not part of the sources under
verification are modelled from the specification and marked as such.
-/

namespace Codenav

/-- Error type for fallible calls; the Go code only propagates errors, never
inspects them, so a plain `String` carrier suffices. -/
abbrev Err := String

/-- Go struct `shared.Position` — a line/character pair. -/
structure Position where
  Line : Int
  Character : Int
deriving DecidableEq, Repr

/-- Go struct `shared.Range` — a start/end position pair (opaque to the algorithm
under verification). -/
structure SRange where
  Start : Position
  End : Position
deriving DecidableEq, Repr

/-- Go struct `shared.Location` — a bundle-local location: upload (dump) id, path and
range. -/
structure Location where
  DumpID : Int
  Path : String
  LRange : SRange
deriving DecidableEq, Repr

/-- Go struct `shared.UploadLocation` — a location adjusted back to the originally
requested commit; the unit returned to callers.  The `Dump` metadata of the
Go struct is represented by its id. -/
structure UploadLocation where
  DumpID : Int
  Path : String
  TargetCommit : String
  TargetRange : SRange
deriving DecidableEq, Repr

/-- Go struct `precise.MonikerData` — scheme plus identifier. -/
structure MonikerData where
  Scheme : String
  Identifier : String
deriving DecidableEq, Repr

/-- Go struct `precise.PackageInformationData` — package manager / name / version. -/
structure PackageInformationData where
  Manager : String
  Name : String
  Version : String
deriving DecidableEq, Repr

/-- Go struct `precise.QualifiedMonikerData` — a moniker together with its package
information (the embedded Go structs become explicit fields). -/
structure QualifiedMonikerData where
  monikerData : MonikerData
  packageInformationData : PackageInformationData
deriving DecidableEq, Repr

/-- The hash string built inside `qualifiedMonikerSet.add`
(types.go): the colon-join of name, version, scheme, manager and
identifier, in that order. -/
def monikerHash (m : QualifiedMonikerData) : String :=
  String.intercalate ":" [
    m.packageInformationData.Name,
    m.packageInformationData.Version,
    m.monikerData.Scheme,
    m.packageInformationData.Manager,
    m.monikerData.Identifier
  ]

/-- Go struct `qualifiedMonikerSet` (types.go) — the ordered list of collected
monikers plus the membership map over hash strings (the Go
`map[string]struct\x7b\x7d` is used only for membership, so a list of the
inserted keys is a faithful model). -/
structure qualifiedMonikerSet where
  monikers : List QualifiedMonikerData
  monikerHashMap : List String
deriving DecidableEq, Repr

/-- Constructor `newQualifiedMonikerSet` (types.go) — the empty set. -/
def newQualifiedMonikerSet : qualifiedMonikerSet :=
  { monikers := [], monikerHashMap := [] }

/-- Method `qualifiedMonikerSet.add` (types.go): append the moniker unless its hash
string is already present. -/
def qualifiedMonikerSet.add (s : qualifiedMonikerSet)
    (qualifiedMoniker : QualifiedMonikerData) : qualifiedMonikerSet :=
  if monikerHash qualifiedMoniker ∈ s.monikerHashMap then s
  else
    { monikers := s.monikers ++ [qualifiedMoniker],
      monikerHashMap := monikerHash qualifiedMoniker :: s.monikerHashMap }

/-- Structural invariant of `qualifiedMonikerSet`: the hash of every
collected moniker has been recorded in the hash map.  It holds for
`newQualifiedMonikerSet` and is preserved by `add`. -/
def qualifiedMonikerSet.wellFormed (s : qualifiedMonikerSet) : Prop :=
  ∀ m ∈ s.monikers, monikerHash m ∈ s.monikerHashMap

/-- Go struct `RequestArgs` (types.go). -/
structure RequestArgs where
  RepositoryID : Int
  Commit : String
  Path : String
  Line : Int
  Character : Int
  Limit : Int
  RawCursor : String
deriving DecidableEq, Repr

/-- Go struct `CursorVisibleUpload` (types.go) — the serialized form of a visible
upload stored inside a cursor. -/
structure CursorVisibleUpload where
  DumpID : Int
  TargetPath : String
  TargetPosition : Position
  TargetPathWithoutRoot : String
deriving DecidableEq, Repr

/-- Go struct `Cursor` (types.go) — the resumption state for a paginated locations
query.  Offsets are Go `int`s (the remote upload offset uses the sentinel
-1), hence `Int`; `SkipPathsByUploadID` is a `map[int]string` used via
keyed update and lookup, modelled as an association list. -/
structure Cursor where
  Phase : String
  VisibleUploads : List CursorVisibleUpload
  LocalUploadOffset : Int
  LocalLocationOffset : Int
  SymbolNames : List String
  SkipPathsByUploadID : List (Int × String)
  DefinitionIDs : List Int
  UploadIDs : List Int
  RemoteUploadOffset : Int
  RemoteLocationOffset : Int
deriving DecidableEq, Repr

/-- Method `Cursor.BumpLocalLocationOffset` (types.go).  The Go receiver is a
value, so the function is a pure map from the old cursor to the new one. -/
def Cursor.BumpLocalLocationOffset (c : Cursor) (n totalCount : Int) : Cursor :=
  let c := { c with LocalLocationOffset := c.LocalLocationOffset + n }
  if c.LocalLocationOffset ≥ totalCount then
    { c with LocalUploadOffset := c.LocalUploadOffset + 1, LocalLocationOffset := 0 }
  else
    c

/-- Method `Cursor.BumpRemoteUploadOffset` (types.go). -/
def Cursor.BumpRemoteUploadOffset (c : Cursor) (n totalCount : Int) : Cursor :=
  let c := { c with RemoteUploadOffset := c.RemoteUploadOffset + n }
  if c.RemoteUploadOffset ≥ totalCount then
    { c with RemoteUploadOffset := -1 }
  else
    c

/-- Method `Cursor.BumpRemoteLocationOffset` (types.go). -/
def Cursor.BumpRemoteLocationOffset (c : Cursor) (n totalCount : Int) : Cursor :=
  let c := { c with RemoteLocationOffset := c.RemoteLocationOffset + n }
  if c.RemoteLocationOffset ≥ totalCount then
    { c with UploadIDs := [], RemoteLocationOffset := 0 }
  else
    c

/-- Go struct `visibleUpload` — an upload visible from the target commit.
The `Upload` field (a `Dump` record) is represented by its id, the only
part the traversal reads. -/
structure visibleUpload where
  UploadID : Int
  TargetPath : String
  TargetPosition : Position
  TargetPathWithoutRoot : String
deriving DecidableEq, Repr

/-- Cursor type `GenericCursor` threaded through `gatherLocations`.  Its
definition is not among the sources; the traversal reads exactly two fields
(the phase string and the resolved visible-upload list), which are modelled
here. -/
structure GenericCursor where
  Phase : String
  CursorsToVisibleUploads : List CursorVisibleUpload
deriving DecidableEq, Repr

/-- Terminal cursor `exhaustedCursor = GenericCursor\x7bPhase: "done"\x7d`
returned by every successful `gatherLocations` page. -/
def exhaustedCursor : GenericCursor :=
  { Phase := "done", CursorsToVisibleUploads := [] }

/-- Result of `scip.ParseSymbol` as consumed by `symbolsToMonikers`: the
scheme and the package manager/name/version of the parsed symbol. -/
structure ParsedSymbol where
  Scheme : String
  Manager : String
  Name : String
  Version : String
deriving DecidableEq, Repr

/-- Reserved marker constant `const skipPrefix = "lsif ."` from the
traversal source: symbol names starting with it are excluded from moniker
collection. -/
def skipMarker : String := "lsif ."

/-- Boolean prefix test modelling Go `strings.HasPrefix` on the character
lists of the two strings (definitionally reducible, unlike the byte-loop of
`String.startsWith`). -/
def goHasPrefix (s pre : String) : Bool := pre.data.isPrefixOf s.data

/-- Lookup in a `map[int]string` modelled as an association list. -/
def lookupAssoc : List (Int × String) → Int → Option String
  | [], _ => none
  | (k, v) :: rest, key => if k = key then some v else lookupAssoc rest key

/-- Keyed update of a `map[int]string` modelled as an association list:
replace the binding if the key is present, otherwise append it. -/
def updateAssoc : List (Int × String) → Int → String → List (Int × String)
  | [], key, val => [(key, val)]
  | (k, v) :: rest, key, val =>
    if k = key then (key, val) :: rest else (k, v) :: updateAssoc rest key val

/-- Insertion into a string set (`map[string]struct\x7b\x7d` used only for
membership) modelled as a duplicate-free list. -/
def insertIfAbsent (l : List String) (s : String) : List String :=
  if s ∈ l then l else l ++ [s]

/-- The symbol-collection step of the traversal loop (the `for _,
symbolName := range uploadSymbols` body): every upload symbol that does not
carry the reserved marker is added to the collected set. -/
def collectSymbols : List String → List String → List String
  | syms, [] => syms
  | syms, s :: rest =>
    if goHasPrefix s skipMarker then collectSymbols syms rest
    else collectSymbols (insertIfAbsent syms s) rest

/-- Insertion step of the string sort modelling `sort.Strings`. -/
def insertSorted (s : String) : List String → List String
  | [] => [s]
  | t :: rest => if s ≤ t then s :: t :: rest else t :: insertSorted s rest

/-- Lexicographic string sort modelling `sort.Strings` (only the produced
order, not the algorithm, is observable). -/
def sortStrings : List String → List String
  | [] => []
  | s :: rest => insertSorted s (sortStrings rest)

/-- External collaborators of the traversal, abstracted as record fields:
the visible-upload discovery result, the diff translator's range
translation, the scip symbol parser, the store's candidate locations for a
bulk moniker lookup, the four per-kind position-extraction calls of the
lsif store, and the two upload-discovery factories. -/
structure Env where
  freshVisibleUploads : Except Err (List CursorVisibleUpload)
  translateRange : Location → Except Err (Option SRange)
  parseSymbol : String → Except Err ParsedSymbol
  bulkCandidates : String → List MonikerData → List Location
  extractDefinitions : Int → String → Int → Int → Int → Int →
    Except Err (List Location × Int × List String)
  extractReferences : Int → String → Int → Int → Int → Int →
    Except Err (List Location × Int × List String)
  extractImplementations : Int → String → Int → Int → Int → Int →
    Except Err (List Location × Int × List String)
  extractPrototypes : Int → String → Int → Int → Int → Int →
    Except Err (List Location × Int × List String)
  definitionUploadFactory : List QualifiedMonikerData → Except Err (List Int)
  referencesUploadFactory : List QualifiedMonikerData → Except Err (List Int)

/-- Conversion of a stored cursor upload back to a `visibleUpload`. -/
def cursorVisibleUploadToVisibleUpload (u : CursorVisibleUpload) : visibleUpload :=
  { UploadID := u.DumpID, TargetPath := u.TargetPath,
    TargetPosition := u.TargetPosition,
    TargetPathWithoutRoot := u.TargetPathWithoutRoot }

/-- Modelled from the spec: `getVisibleUploadsFromCursor` is not under
src/.  Per spec 4.1, if the cursor already carries a resolved
visible-upload list it is reused rather than recomputed; otherwise the
uploads covering the position are resolved through the diff translator,
whose failure is fatal for the request. -/
def getVisibleUploadsFromCursor (env : Env) (stored : List CursorVisibleUpload) :
    Except Err (List visibleUpload × List CursorVisibleUpload) :=
  match stored with
  | [] =>
    match env.freshVisibleUploads with
    | .error e => .error e
    | .ok fresh => .ok (fresh.map cursorVisibleUploadToVisibleUpload, fresh)
  | u :: rest =>
    .ok ((u :: rest).map cursorVisibleUploadToVisibleUpload, u :: rest)

/-- Modelled from the spec: `getUploadLocations` (the LocationAdjuster,
spec 4.6) is not under src/.  Each bundle-local location's range is
rewritten into the requested commit's coordinates via the diff translator's
range translation; a location whose range no longer exists at the target
commit is dropped; translator failure is fatal.  Upload id and path are
carried over unchanged. -/
def getUploadLocations (env : Env) (args : RequestArgs) :
    List Location → Bool → Except Err (List UploadLocation)
  | [], _ => .ok []
  | l :: rest, includeFallback =>
    match env.translateRange l with
    | .error e => .error e
    | .ok none => getUploadLocations env args rest includeFallback
    | .ok (some r) =>
      match getUploadLocations env args rest includeFallback with
      | .error e => .error e
      | .ok tail =>
        .ok ({ DumpID := l.DumpID, Path := l.Path,
               TargetCommit := args.Commit, TargetRange := r } :: tail)

/-- Modelled from the spec: `GetMinimalBulkMonikerLocations` (the
BulkMonikerLocator, spec 4.5/6) is not under src/.  One batched lookup
against the kind-specific table: candidate locations are restricted to the
given upload ids, every (uploadID, path) pair present in `skipPaths` is
excluded, and offset/limit windowing is applied to the stable candidate
order. -/
def GetMinimalBulkMonikerLocations
    (candidates : String → List MonikerData → List Location)
    (tableName : String) (uploadIDs : List Int)
    (skipPaths : List (Int × String)) (monikers : List MonikerData)
    (limit offset : Int) : Except Err (List Location × Int) :=
  let matching := (candidates tableName monikers).filter
    (fun l => uploadIDs.contains l.DumpID &&
      decide (lookupAssoc skipPaths l.DumpID ≠ some l.Path))
  .ok ((matching.drop offset.toNat).take limit.toNat, matching.length)

/-- Function `symbolsToMonikers` from the traversal source: parse each
symbol name (via `scip.ParseSymbol`, abstracted as `env.parseSymbol`) into
a qualified moniker whose identifier is the full symbol name; the first
parse failure aborts with that error. -/
def symbolsToMonikers (env : Env) : List String → Except Err (List QualifiedMonikerData)
  | [] => .ok []
  | symbolName :: rest =>
    match env.parseSymbol symbolName with
    | .error e => .error e
    | .ok parsedSymbol =>
      match symbolsToMonikers env rest with
      | .error e => .error e
      | .ok restMonikers =>
        .ok ({ monikerData :=
                 { Scheme := parsedSymbol.Scheme, Identifier := symbolName },
               packageInformationData :=
                 { Manager := parsedSymbol.Manager, Name := parsedSymbol.Name,
                   Version := parsedSymbol.Version } } :: restMonikers)

/-- Outcome of the per-upload loop of `gatherLocations`: either the
stop-after-first short-circuit with its adjusted locations, or the
accumulated locations, collected symbols and skip paths. -/
inductive LocalOut where
  | short (uploadLocations : List UploadLocation)
  | acc (allLocations : List UploadLocation) (allSymbols : List String)
      (skipPaths : List (Int × String))
deriving DecidableEq, Repr

/-- The per-upload loop of `gatherLocations` (the `for i := range
visibleUploads` body): direct position lookup, adjustment of any hits,
stop-after-first short-circuit, skip-path recording, and marker-filtered
symbol collection, with all errors propagated. -/
def localPhase (env : Env) (args : RequestArgs) (stopAfterFirstResult : Bool)
    (getLocationsFromPosition : Int → String → Int → Int → Int → Int →
      Except Err (List Location × Int × List String)) :
    List visibleUpload → List UploadLocation → List String →
      List (Int × String) → Except Err LocalOut
  | [], allLocations, allSymbols, skipPaths =>
    .ok (.acc allLocations allSymbols skipPaths)
  | u :: rest, allLocations, allSymbols, skipPaths =>
    match getLocationsFromPosition u.UploadID u.TargetPathWithoutRoot
        u.TargetPosition.Line u.TargetPosition.Character args.Limit 0 with
    | .error e => .error e
    | .ok (locations, _totalCount, uploadSymbols) =>
      if locations.isEmpty then
        localPhase env args stopAfterFirstResult getLocationsFromPosition rest
          allLocations (collectSymbols allSymbols uploadSymbols) skipPaths
      else
        match getUploadLocations env args locations true with
        | .error e => .error e
        | .ok uploadLocations =>
          if stopAfterFirstResult then
            .ok (.short uploadLocations)
          else
            localPhase env args stopAfterFirstResult getLocationsFromPosition rest
              (allLocations ++ uploadLocations)
              (collectSymbols allSymbols uploadSymbols)
              (updateAssoc skipPaths u.UploadID u.TargetPathWithoutRoot)

/-- The remote phase of `gatherLocations`: parse the sorted collected
symbols into monikers, discover searchable uploads through the injected
factory, run the single bulk moniker lookup with the local-phase skip
paths, and adjust the results back to the target commit. -/
def remotePhase (env : Env) (args : RequestArgs) (tableName : String)
    (getSearchableUploadIDs : List QualifiedMonikerData → Except Err (List Int))
    (symbolNames : List String) (skipPaths : List (Int × String)) :
    Except Err (List UploadLocation) :=
  match symbolsToMonikers env symbolNames with
  | .error e => .error e
  | .ok monikers =>
    match getSearchableUploadIDs monikers with
    | .error e => .error e
    | .ok uploadIDs =>
      match GetMinimalBulkMonikerLocations env.bulkCandidates tableName
          uploadIDs skipPaths (monikers.map (·.monikerData)) 10000 0 with
      | .error e => .error e
      | .ok (locations, _totalCount) =>
        getUploadLocations env args locations false

/-- The shared traversal `gatherLocations`: resolve visible uploads (reusing
the cursor's stored list when present), run the local per-upload loop, and
unless it short-circuited, run the remote phase and concatenate; every
successful return carries `exhaustedCursor`. -/
def gatherLocations (env : Env) (args : RequestArgs) (cursor : GenericCursor)
    (tableName : String) (stopAfterFirstResult : Bool)
    (getSearchableUploadIDs : List QualifiedMonikerData → Except Err (List Int))
    (getLocationsFromPosition : Int → String → Int → Int → Int → Int →
      Except Err (List Location × Int × List String)) :
    Except Err (List UploadLocation × GenericCursor) :=
  match getVisibleUploadsFromCursor env cursor.CursorsToVisibleUploads with
  | .error e => .error e
  | .ok (visibleUploads, _cursorsToVisibleUploads) =>
    match localPhase env args stopAfterFirstResult getLocationsFromPosition
        visibleUploads [] [] [] with
    | .error e => .error e
    | .ok (.short uploadLocations) => .ok (uploadLocations, exhaustedCursor)
    | .ok (.acc allLocations allSymbols skipPaths) =>
      match remotePhase env args tableName getSearchableUploadIDs
          (sortStrings allSymbols) skipPaths with
      | .error e => .error e
      | .ok adjustedLocations =>
        .ok (allLocations ++ adjustedLocations, exhaustedCursor)

/-- Operation `NewGetDefinitions`: the definitions traversal, started on an
empty cursor with `stopAfterFirstResult = true`; the next cursor is
discarded. -/
def NewGetDefinitions (env : Env) (args : RequestArgs) :
    Except Err (List UploadLocation) :=
  match gatherLocations env args { Phase := "", CursorsToVisibleUploads := [] }
      "definitions" true env.definitionUploadFactory env.extractDefinitions with
  | .error e => .error e
  | .ok (locations, _) => .ok locations

/-- Operation `NewGetReferences`: the references traversal with
`stopAfterFirstResult = false` against the references table. -/
def NewGetReferences (env : Env) (args : RequestArgs) (cursor : GenericCursor) :
    Except Err (List UploadLocation × GenericCursor) :=
  gatherLocations env args cursor "references" false
    env.referencesUploadFactory env.extractReferences

/-- Operation `NewGetImplementations`: the implementations traversal with
`stopAfterFirstResult = false` against the implementations table. -/
def NewGetImplementations (env : Env) (args : RequestArgs) (cursor : GenericCursor) :
    Except Err (List UploadLocation × GenericCursor) :=
  gatherLocations env args cursor "implementations" false
    env.referencesUploadFactory env.extractImplementations

/-- Operation `NewGetPrototypes`: the prototypes traversal with
`stopAfterFirstResult = false` against the definitions table (the "N.B."
in the source). -/
def NewGetPrototypes (env : Env) (args : RequestArgs) (cursor : GenericCursor) :
    Except Err (List UploadLocation × GenericCursor) :=
  gatherLocations env args cursor "definitions" false
    env.definitionUploadFactory env.extractPrototypes

/-- Transformation of a position-extraction function that removes every
marker-carrying symbol from its reported symbol list, leaving locations and
total count untouched; used to state that marked symbols have no effect on
the traversal. -/
def stripMarkedSymbols
    (f : Int → String → Int → Int → Int → Int →
      Except Err (List Location × Int × List String)) :
    Int → String → Int → Int → Int → Int →
      Except Err (List Location × Int × List String) :=
  fun id path line ch limit off =>
    match f id path line ch limit off with
    | .error e => .error e
    | .ok (locs, n, syms) =>
      .ok (locs, n, syms.filter (fun s => !(goHasPrefix s skipMarker)))

/- Concrete example data used to evaluate the traversal at specific
inputs. -/

/-- Example bundle-local location inside upload 1. -/
def exLoc1 : Location := ⟨1, "a.go", ⟨⟨1, 1⟩, ⟨1, 2⟩⟩⟩

/-- Example bundle-local location inside upload 2. -/
def exLoc2 : Location := ⟨2, "b.go", ⟨⟨2, 1⟩, ⟨2, 2⟩⟩⟩

/-- Example remote candidate location inside upload 1 at the path the local
phase already returned (so the bulk lookup must skip it). -/
def exLocSkip : Location := ⟨1, "a.go", ⟨⟨9, 1⟩, ⟨9, 2⟩⟩⟩

/-- Example remote candidate location inside upload 3. -/
def exLocRemote : Location := ⟨3, "c.go", ⟨⟨3, 1⟩, ⟨3, 2⟩⟩⟩

/-- Example adjusted location produced from `exLoc1`. -/
def exUL1 : UploadLocation := ⟨1, "a.go", "deadbeef", ⟨⟨1, 1⟩, ⟨1, 2⟩⟩⟩

/-- Example adjusted location produced from `exLoc2`. -/
def exUL2 : UploadLocation := ⟨2, "b.go", "deadbeef", ⟨⟨2, 1⟩, ⟨2, 2⟩⟩⟩

/-- Example adjusted location produced from `exLocRemote`. -/
def exULRemote : UploadLocation := ⟨3, "c.go", "deadbeef", ⟨⟨3, 1⟩, ⟨3, 2⟩⟩⟩

/-- Example request arguments. -/
def exArgs : RequestArgs := ⟨42, "deadbeef", "a.go", 5, 7, 100, ""⟩

/-- Example stored cursor entry for upload 1. -/
def exCVU1 : CursorVisibleUpload := ⟨1, "a.go", ⟨5, 7⟩, "a.go"⟩

/-- Example stored cursor entry for upload 2. -/
def exCVU2 : CursorVisibleUpload := ⟨2, "b.go", ⟨5, 7⟩, "b.go"⟩

/-- Example visible upload corresponding to `exCVU1`. -/
def exVU1 : visibleUpload := ⟨1, "a.go", ⟨5, 7⟩, "a.go"⟩

/-- Example environment: uploads 1 and 2 each hold one local location at
the query position and report no symbols; the remote side is empty. -/
def exEnv : Env :=
  { freshVisibleUploads := .ok []
    translateRange := fun l => .ok (some l.LRange)
    parseSymbol := fun _ => .ok ⟨"scip", "m", "n", "v"⟩
    bulkCandidates := fun _ _ => []
    extractDefinitions := fun _ _ _ _ _ _ => .ok ([], 0, [])
    extractReferences := fun id _ _ _ _ _ =>
      if id = 1 then .ok ([exLoc1], 1, []) else .ok ([exLoc2], 1, [])
    extractImplementations := fun id _ _ _ _ _ =>
      if id = 1 then .ok ([exLoc1], 1, []) else .ok ([exLoc2], 1, [])
    extractPrototypes := fun _ _ _ _ _ _ => .ok ([], 0, [])
    definitionUploadFactory := fun _ => .ok []
    referencesUploadFactory := fun _ => .ok [] }

/-- Example environment for the skip-path scenario: upload 1 yields one
local location plus symbol "sym"; the bulk candidates hold one location at
the skipped (1, "a.go") pair and one in upload 3. -/
def exSkipEnv : Env :=
  { freshVisibleUploads := .ok []
    translateRange := fun l => .ok (some l.LRange)
    parseSymbol := fun _ => .ok ⟨"scip", "m", "n", "v"⟩
    bulkCandidates := fun _ _ => [exLocSkip, exLocRemote]
    extractDefinitions := fun _ _ _ _ _ _ => .ok ([], 0, [])
    extractReferences := fun id _ _ _ _ _ =>
      if id = 1 then .ok ([exLoc1], 1, ["sym"]) else .ok ([], 0, [])
    extractImplementations := fun _ _ _ _ _ _ => .ok ([], 0, [])
    extractPrototypes := fun _ _ _ _ _ _ => .ok ([], 0, [])
    definitionUploadFactory := fun _ => .ok [1, 3]
    referencesUploadFactory := fun _ => .ok [1, 3] }

/-- Example environment whose symbol parser rejects every symbol, while
upload 1 reports the symbol "badsym" alongside its location. -/
def exParseEnv : Env :=
  { freshVisibleUploads := .ok []
    translateRange := fun l => .ok (some l.LRange)
    parseSymbol := fun _ => .error "malformed symbol"
    bulkCandidates := fun _ _ => []
    extractDefinitions := fun _ _ _ _ _ _ => .ok ([], 0, [])
    extractReferences := fun id _ _ _ _ _ =>
      if id = 1 then .ok ([exLoc1], 1, ["badsym"]) else .ok ([], 0, [])
    extractImplementations := fun _ _ _ _ _ _ => .ok ([], 0, [])
    extractPrototypes := fun _ _ _ _ _ _ => .ok ([], 0, [])
    definitionUploadFactory := fun _ => .ok []
    referencesUploadFactory := fun _ => .ok [] }

/-- Example environment whose upload 1 reports a reserved-marker symbol
next to an ordinary one. -/
def exMarkerEnv : Env :=
  { freshVisibleUploads := .ok []
    translateRange := fun l => .ok (some l.LRange)
    parseSymbol := fun _ => .ok ⟨"scip", "m", "n", "v"⟩
    bulkCandidates := fun _ _ => []
    extractDefinitions := fun _ _ _ _ _ _ => .ok ([], 0, [])
    extractReferences := fun id _ _ _ _ _ =>
      if id = 1 then .ok ([exLoc1], 1, ["lsif . foo", "zsym"]) else .ok ([], 0, [])
    extractImplementations := fun _ _ _ _ _ _ => .ok ([], 0, [])
    extractPrototypes := fun _ _ _ _ _ _ => .ok ([], 0, [])
    definitionUploadFactory := fun _ => .ok []
    referencesUploadFactory := fun _ => .ok [] }

end Codenav

namespace Codenav

/- Helper lemmas about the moniker set. -/

theorem wellFormed_new : newQualifiedMonikerSet.wellFormed := by
  intro m hm
  simp [newQualifiedMonikerSet] at hm

theorem wellFormed_add (s : qualifiedMonikerSet) (m : QualifiedMonikerData)
    (h : s.wellFormed) : (s.add m).wellFormed := by
  intro x hx
  unfold qualifiedMonikerSet.add at hx ⊢
  by_cases hc : monikerHash m ∈ s.monikerHashMap
  · rw [if_pos hc] at hx ⊢
    exact h x hx
  · rw [if_neg hc] at hx ⊢
    simp only [List.mem_append, List.mem_singleton] at hx
    rcases hx with hx | hx
    · exact List.mem_cons_of_mem _ (h x hx)
    · subst hx
      exact List.mem_cons_self _ _

theorem wellFormed_foldl (ms : List QualifiedMonikerData)
    (s : qualifiedMonikerSet) (h : s.wellFormed) :
    (ms.foldl qualifiedMonikerSet.add s).wellFormed := by
  induction ms generalizing s with
  | nil => simpa using h
  | cons m rest ih => exact ih _ (wellFormed_add s m h)

theorem add_mem_of_hash_mem (s : qualifiedMonikerSet) (m : QualifiedMonikerData)
    (h : monikerHash m ∈ s.monikerHashMap) : s.add m = s := by
  unfold qualifiedMonikerSet.add
  simp [h]

/-- Equality of the five-field tuples of two qualified monikers. -/
def tupleEq (m m' : QualifiedMonikerData) : Prop :=
  m.packageInformationData.Manager = m'.packageInformationData.Manager ∧
  m.packageInformationData.Name = m'.packageInformationData.Name ∧
  m.packageInformationData.Version = m'.packageInformationData.Version ∧
  m.monikerData.Scheme = m'.monikerData.Scheme ∧
  m.monikerData.Identifier = m'.monikerData.Identifier

theorem monikerHash_congr (m m' : QualifiedMonikerData) (h : tupleEq m m') :
    monikerHash m = monikerHash m' := by
  obtain ⟨h1, h2, h3, h4, h5⟩ := h
  unfold monikerHash
  rw [h1, h2, h3, h4, h5]

/-- C6: for every qualified moniker and every sequence of add operations on
a `qualifiedMonikerSet` (a set built by folding `add` over any insertion
sequence starting from `newQualifiedMonikerSet`), adding a moniker whose
(manager, name, version, scheme, identifier) 5-tuple equals that of an
element already in the set leaves the set unchanged — `add` is idempotent,
so equal tuples are collapsed to exactly one element regardless of
insertion order. -/
theorem qualifiedMonikerSet_add_idempotent
    (ms : List QualifiedMonikerData) (m m' : QualifiedMonikerData)
    (hmem : m' ∈ (ms.foldl qualifiedMonikerSet.add newQualifiedMonikerSet).monikers)
    (htup : tupleEq m m') :
    (ms.foldl qualifiedMonikerSet.add newQualifiedMonikerSet).add m =
      ms.foldl qualifiedMonikerSet.add newQualifiedMonikerSet := by
  have hwf := wellFormed_foldl ms newQualifiedMonikerSet wellFormed_new
  exact add_mem_of_hash_mem _ m ((monikerHash_congr m m' htup) ▸ hwf m' hmem)

/-- Concrete witness for C6: inserting the same 5-tuple twice yields a set
holding it once. -/
theorem qualifiedMonikerSet_add_idempotent_witness :
    (([⟨⟨"s", "i"⟩, ⟨"mgr", "nm", "v"⟩⟩] :
        List QualifiedMonikerData).foldl qualifiedMonikerSet.add
          newQualifiedMonikerSet).add ⟨⟨"s", "i"⟩, ⟨"mgr", "nm", "v"⟩⟩ =
    ([⟨⟨"s", "i"⟩, ⟨"mgr", "nm", "v"⟩⟩] :
        List QualifiedMonikerData).foldl qualifiedMonikerSet.add
          newQualifiedMonikerSet :=
  qualifiedMonikerSet_add_idempotent
    [⟨⟨"s", "i"⟩, ⟨"mgr", "nm", "v"⟩⟩]
    ⟨⟨"s", "i"⟩, ⟨"mgr", "nm", "v"⟩⟩
    ⟨⟨"s", "i"⟩, ⟨"mgr", "nm", "v"⟩⟩
    (by decide)
    ⟨rfl, rfl, rfl, rfl, rfl⟩

/-- C10: the method `qualifiedMonikerSet.add` keys deduplication on the colon-joined
concatenation of the five fields (name:version:scheme:manager:identifier),
so two distinct 5-tuples with a ':' inside a field can share the key and be
collapsed into a single element.  The pair (Name = "a:b", Version = "c")
versus (Name = "a", Version = "b:c") exhibits the collision. -/
theorem qualifiedMonikerSet_hash_collision :
    monikerHash ⟨⟨"s", "i"⟩, ⟨"mgr", "a:b", "c"⟩⟩ =
        monikerHash ⟨⟨"s", "i"⟩, ⟨"mgr", "a", "b:c"⟩⟩ ∧
    (⟨⟨"s", "i"⟩, ⟨"mgr", "a:b", "c"⟩⟩ : QualifiedMonikerData) ≠
        ⟨⟨"s", "i"⟩, ⟨"mgr", "a", "b:c"⟩⟩ ∧
    ((newQualifiedMonikerSet.add ⟨⟨"s", "i"⟩, ⟨"mgr", "a:b", "c"⟩⟩).add
        ⟨⟨"s", "i"⟩, ⟨"mgr", "a", "b:c"⟩⟩).monikers =
      [⟨⟨"s", "i"⟩, ⟨"mgr", "a:b", "c"⟩⟩] := by
  refine ⟨by decide, by decide, by decide⟩

/-- C7: the bump `BumpLocalLocationOffset n totalCount` adds `n` to the
local-location-offset, except that when the sum reaches `totalCount` the
local-location-offset resets to 0 and the local-upload-offset increments by
exactly 1 (stated for non-negative `n` and `totalCount`, as in the claim;
the code itself never branches on the sign). -/
theorem BumpLocalLocationOffset_spec (c : Cursor) (n totalCount : Int)
    (hn : 0 ≤ n) (ht : 0 ≤ totalCount) :
    c.BumpLocalLocationOffset n totalCount =
      if c.LocalLocationOffset + n ≥ totalCount then
        { c with LocalUploadOffset := c.LocalUploadOffset + 1,
                 LocalLocationOffset := 0 }
      else
        { c with LocalLocationOffset := c.LocalLocationOffset + n } := by
  unfold Cursor.BumpLocalLocationOffset
  rfl

/-- Witness for C7 at a concrete cursor: offset 2 bumped by 3 against a
total of 4 rolls over to the next upload. -/
theorem BumpLocalLocationOffset_spec_witness :
    (⟨"local", [], 7, 2, [], [], [], [], 0, 0⟩ : Cursor).BumpLocalLocationOffset 3 4 =
      if (2 : Int) + 3 ≥ 4 then
        { (⟨"local", [], 7, 2, [], [], [], [], 0, 0⟩ : Cursor) with
            LocalUploadOffset := 7 + 1, LocalLocationOffset := 0 }
      else
        { (⟨"local", [], 7, 2, [], [], [], [], 0, 0⟩ : Cursor) with
            LocalLocationOffset := 2 + 3 } :=
  BumpLocalLocationOffset_spec ⟨"local", [], 7, 2, [], [], [], [], 0, 0⟩ 3 4
    (by decide) (by decide)

/-- C9: each bump operation is a pure function of its value-receiver cursor
(the Go receiver is a copy, so the caller's cursor is untouched — in this
embedding every operation is a total function returning a new value), and
every field other than the offsets designated by the operation (plus, for
`BumpRemoteLocationOffset`, the upload-id batch) is carried over unchanged
from the input cursor. -/
theorem bump_frame_conditions (c : Cursor) (n totalCount : Int) :
    ((c.BumpLocalLocationOffset n totalCount).Phase = c.Phase ∧
     (c.BumpLocalLocationOffset n totalCount).VisibleUploads = c.VisibleUploads ∧
     (c.BumpLocalLocationOffset n totalCount).SymbolNames = c.SymbolNames ∧
     (c.BumpLocalLocationOffset n totalCount).SkipPathsByUploadID = c.SkipPathsByUploadID ∧
     (c.BumpLocalLocationOffset n totalCount).DefinitionIDs = c.DefinitionIDs ∧
     (c.BumpLocalLocationOffset n totalCount).UploadIDs = c.UploadIDs ∧
     (c.BumpLocalLocationOffset n totalCount).RemoteUploadOffset = c.RemoteUploadOffset ∧
     (c.BumpLocalLocationOffset n totalCount).RemoteLocationOffset = c.RemoteLocationOffset) ∧
    ((c.BumpRemoteUploadOffset n totalCount).Phase = c.Phase ∧
     (c.BumpRemoteUploadOffset n totalCount).VisibleUploads = c.VisibleUploads ∧
     (c.BumpRemoteUploadOffset n totalCount).LocalUploadOffset = c.LocalUploadOffset ∧
     (c.BumpRemoteUploadOffset n totalCount).LocalLocationOffset = c.LocalLocationOffset ∧
     (c.BumpRemoteUploadOffset n totalCount).SymbolNames = c.SymbolNames ∧
     (c.BumpRemoteUploadOffset n totalCount).SkipPathsByUploadID = c.SkipPathsByUploadID ∧
     (c.BumpRemoteUploadOffset n totalCount).DefinitionIDs = c.DefinitionIDs ∧
     (c.BumpRemoteUploadOffset n totalCount).UploadIDs = c.UploadIDs ∧
     (c.BumpRemoteUploadOffset n totalCount).RemoteLocationOffset = c.RemoteLocationOffset) ∧
    ((c.BumpRemoteLocationOffset n totalCount).Phase = c.Phase ∧
     (c.BumpRemoteLocationOffset n totalCount).VisibleUploads = c.VisibleUploads ∧
     (c.BumpRemoteLocationOffset n totalCount).LocalUploadOffset = c.LocalUploadOffset ∧
     (c.BumpRemoteLocationOffset n totalCount).LocalLocationOffset = c.LocalLocationOffset ∧
     (c.BumpRemoteLocationOffset n totalCount).SymbolNames = c.SymbolNames ∧
     (c.BumpRemoteLocationOffset n totalCount).SkipPathsByUploadID = c.SkipPathsByUploadID ∧
     (c.BumpRemoteLocationOffset n totalCount).DefinitionIDs = c.DefinitionIDs ∧
     (c.BumpRemoteLocationOffset n totalCount).RemoteUploadOffset = c.RemoteUploadOffset) := by
  obtain ⟨p, vu, luo, llo, sn, sp, di, ui, ruo, rlo⟩ := c
  unfold Cursor.BumpLocalLocationOffset Cursor.BumpRemoteUploadOffset
    Cursor.BumpRemoteLocationOffset
  dsimp only
  refine ⟨?_, ?_, ?_⟩ <;> (split <;> simp)

end Codenav

namespace Codenav

/- Helper lemmas about the traversal's list utilities. -/

theorem mem_insertSorted (x s : String) (l : List String) :
    x ∈ insertSorted s l ↔ x = s ∨ x ∈ l := by
  induction l with
  | nil => simp [insertSorted]
  | cons t rest ih =>
    unfold insertSorted
    by_cases h : s ≤ t
    · simp [h]
    · simp only [h, if_false, List.mem_cons, ih]
      tauto

theorem mem_sortStrings (x : String) (l : List String) :
    x ∈ sortStrings l ↔ x ∈ l := by
  induction l with
  | nil => simp [sortStrings]
  | cons s rest ih => simp [sortStrings, mem_insertSorted, ih]

theorem mem_insertIfAbsent (x s : String) (l : List String) :
    x ∈ insertIfAbsent l s ↔ x ∈ l ∨ x = s := by
  unfold insertIfAbsent
  by_cases h : s ∈ l
  · rw [if_pos h]
    constructor
    · exact Or.inl
    · rintro (hx | rfl)
      · exact hx
      · exact h
  · rw [if_neg h]
    simp

theorem collectSymbols_clean (us : List String) (syms : List String)
    (h : ∀ s ∈ syms, goHasPrefix s skipMarker = false) :
    ∀ s ∈ collectSymbols syms us, goHasPrefix s skipMarker = false := by
  induction us generalizing syms with
  | nil => simpa [collectSymbols] using h
  | cons u rest ih =>
    intro s hs
    rw [collectSymbols] at hs
    by_cases hm : goHasPrefix u skipMarker
    · rw [if_pos hm] at hs
      exact ih syms h s hs
    · rw [if_neg hm] at hs
      refine ih _ ?_ s hs
      intro x hx
      rcases (mem_insertIfAbsent x u syms).mp hx with hx' | rfl
      · exact h x hx'
      · exact Bool.eq_false_iff.mpr hm

theorem collectSymbols_filter (us : List String) (syms : List String) :
    collectSymbols syms (us.filter (fun s => !(goHasPrefix s skipMarker))) =
      collectSymbols syms us := by
  induction us generalizing syms with
  | nil => rfl
  | cons u rest ih =>
    by_cases hm : goHasPrefix u skipMarker
    · have hf : (u :: rest).filter (fun s => !(goHasPrefix s skipMarker)) =
          rest.filter (fun s => !(goHasPrefix s skipMarker)) := by
        simp [List.filter_cons, hm]
      rw [hf, ih]
      conv_rhs => rw [collectSymbols]
      rw [if_pos hm]
    · have hf : (u :: rest).filter (fun s => !(goHasPrefix s skipMarker)) =
          u :: rest.filter (fun s => !(goHasPrefix s skipMarker)) := by
        simp [List.filter_cons, hm]
      rw [hf]
      conv_lhs => rw [collectSymbols]
      conv_rhs => rw [collectSymbols]
      rw [if_neg hm, if_neg hm, ih]

theorem localPhase_symbols_clean (env : Env) (args : RequestArgs) (stop : Bool)
    (f : Int → String → Int → Int → Int → Int →
      Except Err (List Location × Int × List String)) :
    ∀ (ups : List visibleUpload) (all : List UploadLocation) (syms : List String)
      (sp : List (Int × String)) (all' : List UploadLocation) (syms' : List String)
      (sp' : List (Int × String)),
    (∀ s ∈ syms, goHasPrefix s skipMarker = false) →
    localPhase env args stop f ups all syms sp = .ok (.acc all' syms' sp') →
    ∀ s ∈ syms', goHasPrefix s skipMarker = false := by
  intro ups
  induction ups with
  | nil =>
    intro all syms sp all' syms' sp' hclean h
    rw [localPhase] at h
    cases h
    exact hclean
  | cons u rest ih =>
    intro all syms sp all' syms' sp' hclean h
    rw [localPhase] at h
    cases hf : f u.UploadID u.TargetPathWithoutRoot u.TargetPosition.Line
        u.TargetPosition.Character args.Limit 0 with
    | error e => rw [hf] at h; cases h
    | ok triple =>
      obtain ⟨locs, n, us⟩ := triple
      rw [hf] at h
      dsimp only at h
      by_cases hempty : locs.isEmpty = true
      · rw [if_pos hempty] at h
        exact ih _ _ _ _ _ _ (collectSymbols_clean us syms hclean) h
      · rw [if_neg hempty] at h
        cases hadj : getUploadLocations env args locs true with
        | error e => rw [hadj] at h; cases h
        | ok uls =>
          rw [hadj] at h
          dsimp only at h
          by_cases hstop : stop = true
          · rw [if_pos hstop] at h
            cases h
          · rw [if_neg hstop] at h
            exact ih _ _ _ _ _ _ (collectSymbols_clean us syms hclean) h

theorem getUploadLocations_pairs (env : Env) (args : RequestArgs) :
    ∀ (locs : List Location) (b : Bool) (uls : List UploadLocation),
    getUploadLocations env args locs b = .ok uls →
    ∀ ul ∈ uls, ∃ l ∈ locs, ul.DumpID = l.DumpID ∧ ul.Path = l.Path := by
  intro locs
  induction locs with
  | nil =>
    intro b uls h ul hul
    rw [getUploadLocations] at h
    cases h
    cases hul
  | cons l rest ih =>
    intro b uls h ul hul
    rw [getUploadLocations] at h
    cases ht : env.translateRange l with
    | error e => rw [ht] at h; cases h
    | ok r? =>
      rw [ht] at h
      cases r? with
      | none =>
        dsimp only at h
        obtain ⟨l', hl', hpair⟩ := ih b uls h ul hul
        exact ⟨l', List.mem_cons_of_mem _ hl', hpair⟩
      | some r =>
        dsimp only at h
        cases hrec : getUploadLocations env args rest b with
        | error e => rw [hrec] at h; cases h
        | ok tail =>
          rw [hrec] at h
          cases h
          rcases List.mem_cons.mp hul with rfl | htail
          · exact ⟨l, List.mem_cons_self _ _, rfl, rfl⟩
          · obtain ⟨l', hl', hpair⟩ := ih b tail hrec ul htail
            exact ⟨l', List.mem_cons_of_mem _ hl', hpair⟩

theorem symbolsToMonikers_error_of_mem (env : Env) :
    ∀ (names : List String) (s : String) (e : Err),
    s ∈ names → env.parseSymbol s = .error e →
    ∃ e', symbolsToMonikers env names = .error e' := by
  intro names
  induction names with
  | nil => intro s e hs; cases hs
  | cons hd tl ih =>
    intro s e hs hp
    cases hhd : env.parseSymbol hd with
    | error e2 =>
      refine ⟨e2, ?_⟩
      rw [symbolsToMonikers, hhd]
    | ok p =>
      rcases List.mem_cons.mp hs with rfl | htl
      · rw [hhd] at hp
        cases hp
      · obtain ⟨e', he'⟩ := ih s e htl hp
        refine ⟨e', ?_⟩
        rw [symbolsToMonikers, hhd]
        dsimp only
        rw [he']

end Codenav

namespace Codenav

/-- C4: every successful call to the shared traversal `gatherLocations`
(hence to `NewGetReferences`, `NewGetImplementations` and
`NewGetPrototypes`, which delegate to it) returns the terminal done cursor
`exhaustedCursor` as the next cursor, regardless of the input cursor and of
how many results remain upstream: every successful page is the final page
of its cursor chain. -/
theorem gatherLocations_success_cursor_done (env : Env) (args : RequestArgs)
    (c : GenericCursor) (tableName : String) (stop : Bool)
    (fac : List QualifiedMonikerData → Except Err (List Int))
    (f : Int → String → Int → Int → Int → Int →
      Except Err (List Location × Int × List String))
    (res : List UploadLocation) (c' : GenericCursor)
    (h : gatherLocations env args c tableName stop fac f = .ok (res, c')) :
    c' = exhaustedCursor := by
  unfold gatherLocations at h
  split at h
  · cases h
  · split at h
    · cases h
    · simp only [Except.ok.injEq, Prod.mk.injEq] at h
      exact h.2.symm
    · split at h
      · cases h
      · simp only [Except.ok.injEq, Prod.mk.injEq] at h
        exact h.2.symm

/-- Witness for C4 at a concrete references page: the returned cursor is
the done cursor. -/
theorem gatherLocations_success_cursor_done_witness :
    exhaustedCursor = exhaustedCursor :=
  gatherLocations_success_cursor_done exEnv exArgs
    ⟨"local", [exCVU1]⟩ "references" false exEnv.referencesUploadFactory
    exEnv.extractReferences [exUL1] exhaustedCursor rfl

/-- C1 counterexample: a cursor whose phase is "done" presented to
`NewGetReferences` does not yield an empty result list — the traversal
never inspects the phase, performs the position lookups again and returns
the locations they yield, refuting the claim that a done cursor produces an
empty result with no further lookups. -/
theorem newGetReferences_done_cursor_nonempty :
    NewGetReferences exEnv exArgs ⟨"done", [exCVU1]⟩ =
        .ok ([exUL1], exhaustedCursor) ∧
    ([exUL1] : List UploadLocation) ≠ [] :=
  ⟨rfl, by decide⟩

/-- C1 amended: the traversal ignores the cursor phase entirely — a cursor
with phase "done" is processed exactly like the same cursor with any other
phase string, so a done cursor causes the full lookup to be performed and
returns whatever locations result (not necessarily an empty list), together
with the done cursor which every successful call returns. -/
theorem gatherLocations_phase_ignored (env : Env) (args : RequestArgs)
    (ph ph' : String) (vs : List CursorVisibleUpload) (tableName : String)
    (stop : Bool)
    (fac : List QualifiedMonikerData → Except Err (List Int))
    (f : Int → String → Int → Int → Int → Int →
      Except Err (List Location × Int × List String)) :
    gatherLocations env args ⟨ph, vs⟩ tableName stop fac f =
      gatherLocations env args ⟨ph', vs⟩ tableName stop fac f := rfl

/-- C2 counterexample: `NewGetImplementations` passes
`stopAfterFirstResult = false`, so even though the first visible upload
yields a location, the second visible upload is still queried and its
location is returned as well — refuting the claim that implementations
queries short-circuit after the first upload with results. -/
theorem newGetImplementations_queries_all_uploads :
    NewGetImplementations exEnv exArgs ⟨"local", [exCVU1, exCVU2]⟩ =
        .ok ([exUL1, exUL2], exhaustedCursor) ∧
    ([exUL1, exUL2] : List UploadLocation) ≠ [exUL1] :=
  ⟨rfl, by decide⟩

theorem getVisibleUploadsFromCursor_reuse (env : Env)
    (stored : List CursorVisibleUpload) (h : stored ≠ []) :
    getVisibleUploadsFromCursor env stored =
      .ok (stored.map cursorVisibleUploadToVisibleUpload, stored) := by
  cases stored with
  | nil => exact absurd rfl h
  | cons u rest => rw [getVisibleUploadsFromCursor]

theorem localPhase_short_circuit (env : Env) (args : RequestArgs)
    (f : Int → String → Int → Int → Int → Int →
      Except Err (List Location × Int × List String)) :
    ∀ (pre : List visibleUpload) (u : visibleUpload) (rest : List visibleUpload)
      (all : List UploadLocation) (syms : List String) (sp : List (Int × String))
      (locs : List Location) (n : Int) (usyms : List String)
      (uls : List UploadLocation),
    (∀ v ∈ pre, ∃ m ss, f v.UploadID v.TargetPathWithoutRoot
        v.TargetPosition.Line v.TargetPosition.Character args.Limit 0 =
      .ok ([], m, ss)) →
    f u.UploadID u.TargetPathWithoutRoot u.TargetPosition.Line
        u.TargetPosition.Character args.Limit 0 = .ok (locs, n, usyms) →
    locs.isEmpty = false →
    getUploadLocations env args locs true = .ok uls →
    localPhase env args true f (pre ++ u :: rest) all syms sp =
      .ok (.short uls) := by
  intro pre
  induction pre with
  | nil =>
    intro u rest all syms sp locs n usyms uls hpre h1 h2 h3
    rw [List.nil_append, localPhase, h1]
    dsimp only
    rw [h2, h3]
    simp
  | cons v pvs ih =>
    intro u rest all syms sp locs n usyms uls hpre h1 h2 h3
    obtain ⟨m, ss, hv⟩ := hpre v (List.mem_cons_self _ _)
    rw [List.cons_append, localPhase, hv]
    show localPhase env args true f (pvs ++ u :: rest) all
        (collectSymbols syms ss) sp = .ok (.short uls)
    exact ih u rest all (collectSymbols syms ss) sp locs n usyms uls
      (fun w hw => hpre w (List.mem_cons_of_mem _ hw)) h1 h2 h3

/-- C2 amended: only the definitions operation is stop-after-first
(`NewGetDefinitions` passes `stopAfterFirstResult = true`;
`NewGetImplementations` and `NewGetPrototypes` pass `false` and accumulate
across all visible uploads).  When `stopAfterFirstResult` is true, the
first visible upload that yields at least one location — after any number
of visible uploads that yielded none — short-circuits the request: its
adjusted locations are returned immediately with the terminal done cursor,
and the remaining visible uploads, quantified arbitrarily here and hence
never queried, do not influence the result. -/
theorem gatherLocations_stop_after_first (env : Env) (args : RequestArgs)
    (ph : String) (cpre : List CursorVisibleUpload) (cu : CursorVisibleUpload)
    (crest : List CursorVisibleUpload) (tableName : String)
    (fac : List QualifiedMonikerData → Except Err (List Int))
    (f : Int → String → Int → Int → Int → Int →
      Except Err (List Location × Int × List String))
    (locs : List Location) (n : Int) (syms : List String)
    (uls : List UploadLocation)
    (h0 : ∀ cv ∈ cpre, ∃ m ss, f cv.DumpID cv.TargetPathWithoutRoot
        cv.TargetPosition.Line cv.TargetPosition.Character args.Limit 0 =
      .ok ([], m, ss))
    (h1 : f cu.DumpID cu.TargetPathWithoutRoot cu.TargetPosition.Line
        cu.TargetPosition.Character args.Limit 0 = .ok (locs, n, syms))
    (h2 : locs.isEmpty = false)
    (h3 : getUploadLocations env args locs true = .ok uls) :
    gatherLocations env args ⟨ph, cpre ++ cu :: crest⟩ tableName true fac f =
      .ok (uls, exhaustedCursor) := by
  have hshort := localPhase_short_circuit env args f
    (cpre.map cursorVisibleUploadToVisibleUpload)
    (cursorVisibleUploadToVisibleUpload cu)
    (crest.map cursorVisibleUploadToVisibleUpload) [] [] [] locs n syms uls
    (fun v hv => by
      obtain ⟨cv, hcv, rfl⟩ := List.mem_map.mp hv
      exact h0 cv hcv)
    h1 h2 h3
  unfold gatherLocations
  dsimp only
  rw [getVisibleUploadsFromCursor_reuse env (cpre ++ cu :: crest) (by simp)]
  dsimp only
  rw [List.map_append, List.map_cons, hshort]

/-- Witness for C2's amended theorem: the first visible upload (upload 2)
yields no locations, the second (upload 1) yields one, and with
`stopAfterFirstResult = true` exactly that upload's adjusted location is
returned with the done cursor. -/
theorem gatherLocations_stop_after_first_witness :
    (∀ cv ∈ [exCVU2], ∃ m ss, exSkipEnv.extractReferences cv.DumpID
        cv.TargetPathWithoutRoot cv.TargetPosition.Line
        cv.TargetPosition.Character exArgs.Limit 0 = .ok ([], m, ss)) ∧
    (exSkipEnv.extractReferences exCVU1.DumpID exCVU1.TargetPathWithoutRoot
        exCVU1.TargetPosition.Line exCVU1.TargetPosition.Character
        exArgs.Limit 0 = .ok ([exLoc1], 1, ["sym"])) ∧
    ([exLoc1] : List Location).isEmpty = false ∧
    getUploadLocations exSkipEnv exArgs [exLoc1] true = .ok [exUL1] ∧
    gatherLocations exSkipEnv exArgs ⟨"local", [exCVU2] ++ exCVU1 :: [exCVU2]⟩
        "definitions" true exSkipEnv.referencesUploadFactory
        exSkipEnv.extractReferences = .ok ([exUL1], exhaustedCursor) :=
  ⟨fun cv hcv => by
      obtain rfl := List.mem_singleton.mp hcv
      exact ⟨0, [], rfl⟩,
    rfl, rfl, rfl,
    gatherLocations_stop_after_first exSkipEnv exArgs "local" [exCVU2] exCVU1
      [exCVU2] "definitions" exSkipEnv.referencesUploadFactory
      exSkipEnv.extractReferences [exLoc1] 1 ["sym"] [exUL1]
      (fun cv hcv => by
        obtain rfl := List.mem_singleton.mp hcv
        exact ⟨0, [], rfl⟩)
      rfl rfl rfl⟩

end Codenav

namespace Codenav

theorem bulk_output_not_skipped
    (cands : String → List MonikerData → List Location) (tableName : String)
    (uploadIDs : List Int) (sp : List (Int × String))
    (monikers : List MonikerData) (limit off : Int)
    (locations : List Location) (total : Int)
    (h : GetMinimalBulkMonikerLocations cands tableName uploadIDs sp monikers
        limit off = .ok (locations, total)) :
    ∀ l ∈ locations, lookupAssoc sp l.DumpID ≠ some l.Path := by
  unfold GetMinimalBulkMonikerLocations at h
  simp only [Except.ok.injEq, Prod.mk.injEq] at h
  obtain ⟨hl, -⟩ := h
  subst hl
  intro l hl
  have hmem := List.mem_of_mem_drop (List.mem_of_mem_take hl)
  have hp := (List.mem_filter.mp hmem).2
  simp only [Bool.and_eq_true, decide_eq_true_eq] at hp
  exact hp.2

theorem remotePhase_respects_skip (env : Env) (args : RequestArgs)
    (tableName : String)
    (fac : List QualifiedMonikerData → Except Err (List Int))
    (names : List String) (sp : List (Int × String))
    (adj : List UploadLocation)
    (h : remotePhase env args tableName fac names sp = .ok adj) :
    ∀ ul ∈ adj, lookupAssoc sp ul.DumpID ≠ some ul.Path := by
  unfold remotePhase at h
  cases hsm : symbolsToMonikers env names with
  | error e => rw [hsm] at h; cases h
  | ok monikers =>
    rw [hsm] at h
    dsimp only at h
    cases hfac : fac monikers with
    | error e => rw [hfac] at h; cases h
    | ok uploadIDs =>
      rw [hfac] at h
      dsimp only at h
      cases hbulk : GetMinimalBulkMonikerLocations env.bulkCandidates tableName
          uploadIDs sp (monikers.map (·.monikerData)) 10000 0 with
      | error e => rw [hbulk] at h; cases h
      | ok pair =>
        obtain ⟨locations, total⟩ := pair
        rw [hbulk] at h
        dsimp only at h
        intro ul hul
        obtain ⟨l, hl, hid, hpath⟩ :=
          getUploadLocations_pairs env args locations false adj h ul hul
        have hns := bulk_output_not_skipped env.bulkCandidates tableName
          uploadIDs sp (monikers.map (·.monikerData)) 10000 0 locations total
          hbulk l hl
        rw [hid, hpath]
        exact hns

/-- C3: every (uploadID, path) pair recorded in the local-phase skip map is
passed, unchanged, in the `skipPaths` argument of the remote-phase bulk
moniker lookup of the request (first conjunct: the result decomposes into
the local accumulation followed by the remote phase run on exactly the skip
map the local phase produced), and no location at a skipped (uploadID,
path) pair is returned by the remote phase (second conjunct).  Because
every successful page is the final page of its cursor chain here, an entry,
once set, persists for the (single-page) life of the request sequence.  The
bulk lookup and the location adjuster are not among the sources; they are
modelled from the spec (`GetMinimalBulkMonikerLocations`,
`getUploadLocations`). -/
theorem gatherLocations_remote_respects_skip_paths (env : Env)
    (args : RequestArgs) (c : GenericCursor) (tableName : String)
    (fac : List QualifiedMonikerData → Except Err (List Int))
    (f : Int → String → Int → Int → Int → Int →
      Except Err (List Location × Int × List String))
    (ups : List visibleUpload) (stored : List CursorVisibleUpload)
    (allLocs : List UploadLocation) (syms : List String)
    (sp : List (Int × String)) (adj : List UploadLocation)
    (h0 : getVisibleUploadsFromCursor env c.CursorsToVisibleUploads =
      .ok (ups, stored))
    (h1 : localPhase env args false f ups [] [] [] = .ok (.acc allLocs syms sp))
    (h2 : remotePhase env args tableName fac (sortStrings syms) sp = .ok adj) :
    gatherLocations env args c tableName false fac f =
        .ok (allLocs ++ adj, exhaustedCursor) ∧
    ∀ ul ∈ adj, lookupAssoc sp ul.DumpID ≠ some ul.Path := by
  constructor
  · unfold gatherLocations
    rw [h0]
    dsimp only
    rw [h1]
    dsimp only
    rw [h2]
  · exact remotePhase_respects_skip env args tableName fac (sortStrings syms)
      sp adj h2

/-- Witness for C3: upload 1 contributes a local location at (1, "a.go"),
the remote candidates contain a location at exactly that skipped pair plus
one in upload 3, and only the upload-3 location comes back from the remote
phase. -/
theorem gatherLocations_remote_respects_skip_paths_witness :
    (getVisibleUploadsFromCursor exSkipEnv
        (⟨"local", [exCVU1]⟩ : GenericCursor).CursorsToVisibleUploads =
      .ok ([exVU1], [exCVU1])) ∧
    (localPhase exSkipEnv exArgs false exSkipEnv.extractReferences
        [exVU1] [] [] [] = .ok (.acc [exUL1] ["sym"] [(1, "a.go")])) ∧
    (remotePhase exSkipEnv exArgs "references" exSkipEnv.referencesUploadFactory
        (sortStrings ["sym"]) [(1, "a.go")] = .ok [exULRemote]) ∧
    (gatherLocations exSkipEnv exArgs ⟨"local", [exCVU1]⟩ "references" false
        exSkipEnv.referencesUploadFactory exSkipEnv.extractReferences =
        .ok ([exUL1] ++ [exULRemote], exhaustedCursor) ∧
      ∀ ul ∈ [exULRemote], lookupAssoc [(1, "a.go")] ul.DumpID ≠ some ul.Path) :=
  ⟨rfl, rfl, rfl,
    gatherLocations_remote_respects_skip_paths exSkipEnv exArgs
      ⟨"local", [exCVU1]⟩ "references" exSkipEnv.referencesUploadFactory
      exSkipEnv.extractReferences [exVU1] [exCVU1] [exUL1] ["sym"]
      [(1, "a.go")] [exULRemote] rfl rfl rfl⟩

/-- C8: if any collected symbol name fails moniker parsing, the entire page
request fails with an error: the `Except.error` outcome carries no
locations and no next cursor, so a parse failure is never silently
skipped. -/
theorem gatherLocations_parse_failure_fatal (env : Env) (args : RequestArgs)
    (c : GenericCursor) (tableName : String) (stop : Bool)
    (fac : List QualifiedMonikerData → Except Err (List Int))
    (f : Int → String → Int → Int → Int → Int →
      Except Err (List Location × Int × List String))
    (ups : List visibleUpload) (stored : List CursorVisibleUpload)
    (allLocs : List UploadLocation) (syms : List String)
    (sp : List (Int × String)) (s : String) (e : Err)
    (h0 : getVisibleUploadsFromCursor env c.CursorsToVisibleUploads =
      .ok (ups, stored))
    (h1 : localPhase env args stop f ups [] [] [] = .ok (.acc allLocs syms sp))
    (h2 : s ∈ sortStrings syms)
    (h3 : env.parseSymbol s = .error e) :
    ∃ e', gatherLocations env args c tableName stop fac f = .error e' := by
  obtain ⟨e', he'⟩ := symbolsToMonikers_error_of_mem env (sortStrings syms) s e h2 h3
  refine ⟨e', ?_⟩
  unfold gatherLocations
  rw [h0]
  dsimp only
  rw [h1]
  dsimp only
  unfold remotePhase
  rw [he']

/-- Witness for C8: the parser rejects "badsym", which upload 1 reported,
and the whole references page fails. -/
theorem gatherLocations_parse_failure_fatal_witness :
    (getVisibleUploadsFromCursor exParseEnv
        (⟨"local", [exCVU1]⟩ : GenericCursor).CursorsToVisibleUploads =
      .ok ([exVU1], [exCVU1])) ∧
    (localPhase exParseEnv exArgs false exParseEnv.extractReferences
        [exVU1] [] [] [] = .ok (.acc [exUL1] ["badsym"] [(1, "a.go")])) ∧
    "badsym" ∈ sortStrings ["badsym"] ∧
    exParseEnv.parseSymbol "badsym" = .error "malformed symbol" ∧
    ∃ e', gatherLocations exParseEnv exArgs ⟨"local", [exCVU1]⟩ "references"
        false exParseEnv.referencesUploadFactory exParseEnv.extractReferences =
      .error e' :=
  ⟨rfl, rfl, by decide, rfl,
    gatherLocations_parse_failure_fatal exParseEnv exArgs ⟨"local", [exCVU1]⟩
      "references" false exParseEnv.referencesUploadFactory
      exParseEnv.extractReferences [exVU1] [exCVU1] [exUL1] ["badsym"]
      [(1, "a.go")] "badsym" "malformed symbol" rfl rfl (by decide) rfl⟩

end Codenav

namespace Codenav

theorem localPhase_strip (env : Env) (args : RequestArgs) (stop : Bool)
    (f : Int → String → Int → Int → Int → Int →
      Except Err (List Location × Int × List String)) :
    ∀ (ups : List visibleUpload) (all : List UploadLocation)
      (syms : List String) (sp : List (Int × String)),
    localPhase env args stop (stripMarkedSymbols f) ups all syms sp =
      localPhase env args stop f ups all syms sp := by
  intro ups
  induction ups with
  | nil => intro all syms sp; rfl
  | cons u rest ih =>
    intro all syms sp
    conv_lhs => rw [localPhase]
    conv_rhs => rw [localPhase]
    cases hf : f u.UploadID u.TargetPathWithoutRoot u.TargetPosition.Line
        u.TargetPosition.Character args.Limit 0 with
    | error e =>
      have hsf : stripMarkedSymbols f u.UploadID u.TargetPathWithoutRoot
          u.TargetPosition.Line u.TargetPosition.Character args.Limit 0 =
          .error e := by
        unfold stripMarkedSymbols
        rw [hf]
      rw [hsf]
    | ok triple =>
      obtain ⟨locs, n, us⟩ := triple
      have hsf : stripMarkedSymbols f u.UploadID u.TargetPathWithoutRoot
          u.TargetPosition.Line u.TargetPosition.Character args.Limit 0 =
          .ok (locs, n, us.filter (fun s => !(goHasPrefix s skipMarker))) := by
        unfold stripMarkedSymbols
        rw [hf]
      rw [hsf]
      dsimp only
      by_cases hempty : locs.isEmpty = true
      · rw [if_pos hempty, if_pos hempty, collectSymbols_filter, ih]
      · rw [if_neg hempty, if_neg hempty]
        cases hadj : getUploadLocations env args locs true with
        | error e => rfl
        | ok uls =>
          dsimp only
          by_cases hstop : stop = true
          · rw [if_pos hstop, if_pos hstop]
          · rw [if_neg hstop, if_neg hstop, collectSymbols_filter, ih]

/-- C5: symbol names observed during local extraction that carry the
reserved marker `skipMarker` ("lsif .") are excluded from the collected
symbol set — first conjunct: the sorted symbol list handed to moniker
parsing (and thence, as moniker identifiers, to cross-index upload
discovery) contains no marker-carrying name — while the locations extracted
alongside them are unaffected — second conjunct: deleting every
marker-carrying symbol from the extractor's output leaves the entire local
phase, its accumulated locations included, unchanged. -/
theorem localPhase_excludes_marked_symbols :
    (∀ (env : Env) (args : RequestArgs) (stop : Bool)
        (f : Int → String → Int → Int → Int → Int →
          Except Err (List Location × Int × List String))
        (ups : List visibleUpload) (allOut : List UploadLocation)
        (symsOut : List String) (spOut : List (Int × String)),
      localPhase env args stop f ups [] [] [] = .ok (.acc allOut symsOut spOut) →
      ∀ s ∈ sortStrings symsOut, goHasPrefix s skipMarker = false) ∧
    (∀ (env : Env) (args : RequestArgs) (stop : Bool)
        (f : Int → String → Int → Int → Int → Int →
          Except Err (List Location × Int × List String))
        (ups : List visibleUpload) (all : List UploadLocation)
        (syms : List String) (sp : List (Int × String)),
      localPhase env args stop (stripMarkedSymbols f) ups all syms sp =
        localPhase env args stop f ups all syms sp) := by
  constructor
  · intro env args stop f ups allOut symsOut spOut h s hs
    exact localPhase_symbols_clean env args stop f ups [] [] [] allOut symsOut
      spOut (by intro x hx; cases hx) h s ((mem_sortStrings s symsOut).mp hs)
  · intro env args stop f
    exact localPhase_strip env args stop f

/-- Witness for C5: upload 1 reports the marker symbol "lsif . foo" next to
"zsym"; only "zsym" is collected, and stripping marker symbols from the
extractor output changes nothing. -/
theorem localPhase_excludes_marked_symbols_witness :
    (localPhase exMarkerEnv exArgs false exMarkerEnv.extractReferences
        [exVU1] [] [] [] = .ok (.acc [exUL1] ["zsym"] [(1, "a.go")])) ∧
    (∀ s ∈ sortStrings ["zsym"], goHasPrefix s skipMarker = false) ∧
    (localPhase exMarkerEnv exArgs false
        (stripMarkedSymbols exMarkerEnv.extractReferences) [exVU1] [] [] [] =
      localPhase exMarkerEnv exArgs false exMarkerEnv.extractReferences
        [exVU1] [] [] []) :=
  ⟨rfl,
    localPhase_excludes_marked_symbols.1 exMarkerEnv exArgs false
      exMarkerEnv.extractReferences [exVU1] [exUL1] ["zsym"] [(1, "a.go")] rfl,
    localPhase_excludes_marked_symbols.2 exMarkerEnv exArgs false
      exMarkerEnv.extractReferences [exVU1] [] [] []⟩

end Codenav
